import Mathlib

/-!
Verification of the midnight_fetcher_bot mining orchestrator.

Shallow embedding of:
  - src/lib/mining/nonce.ts           (generateNonce, numberToNonce)
  - MiningOrchestrator                (poll/mine state machine, dedup state,
                                       solution submission, receipt reload,
                                       dev-fee scheduling)
  - DevFeeManager                     (config defaults, address fetch/cache)

Machine numbers are modelled as Nat; JS Sets/Maps as lists with membership
semantics; network and randomness as explicit input parameters.
-/

/-! ## Hex rendering (JS Number.prototype.toString(16) for nonnegative integers) -/

/-- One hex digit character, lowercase, as produced by JS toString(16). -/
def hexDigitChar (d : Nat) : Char :=
  if d < 10 then Char.ofNat (48 + d) else Char.ofNat (87 + d)

/-- Accumulator loop producing the base-16 digits of n, most significant first. -/
def hexCharsAux (n : Nat) (acc : List Char) : List Char :=
  if h : n = 0 then acc
  else hexCharsAux (n / 16) (hexDigitChar (n % 16) :: acc)
termination_by n
decreasing_by exact Nat.div_lt_self (Nat.pos_of_ne_zero h) (by norm_num)

/-- JS `n.toString(16)` for a nonnegative integer n (lowercase, no leading zeros,
"0" for zero). -/
def toHexChars (n : Nat) : List Char :=
  if n = 0 then ['0'] else hexCharsAux n []

/-- JS `String.prototype.padStart(n, c)` on a character list: pads on the left up
to length n; leaves the string unchanged when already at least that long. -/
def padStartList (l : List Char) (n : Nat) (c : Char) : List Char :=
  List.replicate (n - l.length) c ++ l

/-- Decidable test: c is a lowercase hexadecimal digit (0-9 or a-f). -/
def isLowerHexDigit (c : Char) : Bool :=
  (48 ≤ c.toNat && c.toNat ≤ 57) || (97 ≤ c.toNat && c.toNat ≤ 102)

/-! ## src/lib/mining/nonce.ts -/

/-- `numberToNonce` (nonce.ts:41-43): `num.toString(16).padStart(16, '0')`. -/
def numberToNonce (num : Nat) : String :=
  ⟨padStartList (toHexChars num) 16 '0'⟩

/-- One byte rendered as two hex chars: `b.toString(16).padStart(2, '0')`
(nonce.ts:25). -/
def byteToHex (b : Nat) : List Char :=
  padStartList (toHexChars (b % 256)) 2 '0'

/-- `generateNonce` (nonce.ts:12-34). The first byte is `workerId & 0xFF`; the
remaining seven bytes come from the random source r (each reduced mod 256, as
`Math.floor(Math.random() * 256)` yields a value in 0..255). The guard raises
when the rendered string is not exactly 16 characters. -/
def generateNonce (workerId : Nat) (r : Nat → Nat) : Except String String :=
  let bytes : List Nat := (workerId % 256) :: ((List.range 7).map (fun i => r (i + 1) % 256))
  let nonce : List Char := (bytes.map byteToHex).flatten
  if nonce.length ≠ 16 then
    Except.error "Generated nonce has invalid length"
  else
    Except.ok ⟨nonce⟩

/-- The per-identity miner's nonce call (MiningOrchestrator.mineForAddress,
part_001:568): `generateNonce()` with the default workerId = 0. -/
def minerGenerateNonce (r : Nat → Nat) : Except String String :=
  generateNonce 0 r

/-! ## Orchestrator data model (MiningOrchestrator, part_001) -/

/-- `DerivedAddress` (wallet manager): index, bech32 encoding, registered flag.
Index is Int because the dev-fee pseudo-address uses index -1 (part_001:915). -/
structure DerivedAddress where
  index : Int
  bech32 : String
  registered : Bool
deriving Repr, DecidableEq

/-- A challenge as returned by the poll endpoint. -/
structure Challenge where
  challenge_id : String
  difficulty : String
  no_pre_mine : Bool
deriving Repr, DecidableEq

/-- The poll endpoint's response: `{code: before|active|after, challenge?}`. -/
inductive ChallengeResponse
  | before
  | after
  | active (c : Challenge)
deriving Repr, DecidableEq

/-- A persisted solution receipt (receipts journal entry), as read back by
`loadSubmittedSolutions`. The hash field is optional in the record type. -/
structure Receipt where
  address : String
  challenge_id : String
  hash : Option String
  isDevFee : Bool
deriving Repr, DecidableEq

/-- Association-list model of `Map<string, Set<string>>`: address to list of
solved challenge ids. -/
def lookupSolved : List (String × List String) → String → Option (List String)
  | [], _ => none
  | (k, v) :: rest, a => if k = a then some v else lookupSolved rest a

/-- `if (!map.has(a)) map.set(a, new Set()); map.get(a).add(c)` on the
association-list model. -/
def addSolved : List (String × List String) → String → String → List (String × List String)
  | [], a, c => [(a, [c])]
  | (k, v) :: rest, a, c =>
    if k = a then (k, c :: v) :: rest else (k, v) :: addSolved rest a c

/-- Whether the (address, challenge id) pair is recorded as solved. -/
def pairSolved (m : List (String × List String)) (a c : String) : Bool :=
  match lookupSolved m a with
  | none => false
  | some v => v.contains c

/-- The MiningOrchestrator's mutable fields that the claims are about
(part_001:176-196). JS Sets are lists with membership semantics. -/
structure OState where
  isRunning : Bool
  walletLoaded : Bool
  currentChallengeId : Option String
  currentChallenge : Option Challenge
  isMining : Bool
  addresses : List DerivedAddress
  addressesProcessedCurrentChallenge : List Int
  submittedSolutions : List String
  solvedAddressChallenges : List (String × List String)
  userSolutionsCount : Nat
  solutionsFound : Nat
  startTime : Option Nat
deriving Repr, DecidableEq

/-- Field initializers of the MiningOrchestrator class (part_001:176-196). -/
def initialOState : OState :=
  { isRunning := false
    walletLoaded := false
    currentChallengeId := none
    currentChallenge := none
    isMining := false
    addresses := []
    addressesProcessedCurrentChallenge := []
    submittedSolutions := []
    solvedAddressChallenges := []
    userSolutionsCount := 0
    solutionsFound := 0
    startTime := none }

/-- `stop()` (part_001:236-249): clears the running flag and the poll timer and
emits an inactive status event. -/
def stopOrchestrator (s : OState) : OState :=
  { s with isRunning := false }

/-! ## Dedup/resume store: loadSubmittedSolutions (part_001:836-871) -/

/-- One iteration of the `for (const receipt of userReceipts)` loop: the hash is
added when truthy (`if (receipt.hash)` — absent or empty string is falsy), and
the (address, challenge_id) pair is recorded unconditionally. -/
def applyReceipt (s : OState) (r : Receipt) : OState :=
  let s1 := match r.hash with
    | some h => if h = "" then s else { s with submittedSolutions := h :: s.submittedSolutions }
    | none => s
  { s1 with solvedAddressChallenges := addSolved s1.solvedAddressChallenges r.address r.challenge_id }

/-- `loadSubmittedSolutions` (part_001:836-871): filters out dev-fee receipts,
sets the user-solutions counter to the number of non-fee receipts, then folds the
non-fee receipts into the Submitted-Hash Set and the Solved-Pairs Map. -/
def loadSubmittedSolutions (s : OState) (receipts : List Receipt) : OState :=
  let userReceipts := receipts.filter (fun r => !r.isDevFee)
  let s1 := { s with userSolutionsCount := userReceipts.length }
  userReceipts.foldl applyReceipt s1

/-! ## Challenge poller: pollAndMine (part_001:386-454) -/

/-- `pollAndMine` (part_001:386-454), with the network response and ROM
readiness outcome as explicit inputs. On a new active challenge id the code
stops mining, clears BOTH the per-challenge processed set and the
submittedSolutions set (lines 416-417), initializes the ROM and — when the ROM
becomes ready in time — records the new challenge as current. When the ROM
times out the function throws after the clears, so the partially-updated state
is returned (the poll loop catches the error). The subsequent startMining call
is not part of this state transition. -/
def pollAndMine (s : OState) (resp : ChallengeResponse) (romOk : Bool) : OState :=
  match resp with
  | .before => s
  | .after => stopOrchestrator s
  | .active c =>
    if s.currentChallengeId = some c.challenge_id then s
    else
      let s1 := { s with
        isMining := false
        addressesProcessedCurrentChallenge := []
        submittedSolutions := [] }
      if romOk = false then s1
      else { s1 with
        currentChallengeId := some c.challenge_id
        currentChallenge := some c }

/-! ## Per-identity miner: the solution-detection loop of mineForAddress
(part_001:599-648) -/

/-- Observable operations of the solution path, in program order. -/
inductive MineEvent
  | addSubmitted (h : String)
  | markSolved (a c : String)
  | emitSolutionSubmit (a c n : String)
  | invokeSubmit (a n h : String)
deriving Repr, DecidableEq

/-- The `for (let i = 0; i < hashes.length; i++)` loop over one batch's
(hash, nonce) results (part_001:599-648). `accept` is
`matchesDifficulty(hash, difficulty)` (external difficulty test). A digest that
passes the difficulty test but is already in submittedSolutions is skipped; the
first fresh accepted digest is added to submittedSolutions, the pair is marked
solved, the solution_submit event is emitted, the submitter is invoked, and the
function returns (Bool result = a solution was found). -/
def processBatch (accept : String → Bool) (a c : String) :
    OState → List (String × String) → OState × List MineEvent × Bool
  | s, [] => (s, [], false)
  | s, (h, n) :: rest =>
    if accept h then
      if h ∈ s.submittedSolutions then
        processBatch accept a c s rest
      else
        let s1 := { s with submittedSolutions := h :: s.submittedSolutions }
        let s2 := { s1 with solvedAddressChallenges := addSolved s1.solvedAddressChallenges a c }
        (s2, [MineEvent.addSubmitted h, MineEvent.markSolved a c,
              MineEvent.emitSolutionSubmit a c n, MineEvent.invokeSubmit a n h], true)
    else processBatch accept a c s rest

/-- The outer `while` loop of mineForAddress over successive candidate batches:
processing stops at the first batch that produced a submission (the `return` at
part_001:647); otherwise the next batch is generated. -/
def mineBatches (accept : String → Bool) (a c : String) :
    OState → List (List (String × String)) → OState × List MineEvent
  | s, [] => (s, [])
  | s, b :: bs =>
    match processBatch accept a c s b with
    | (s', ev, true) => (s', ev)
    | (s', ev, false) =>
      match mineBatches accept a c s' bs with
      | (s'', evs) => (s'', ev ++ evs)

/-- Number of Solution Submitter invocations in a trace. -/
def countSubmits : List MineEvent → Nat
  | [] => 0
  | MineEvent.invokeSubmit _ _ _ :: rest => countSubmits rest + 1
  | _ :: rest => countSubmits rest

/-! ## Solution submitter: submitSolution (part_001:685-830) -/

/-- Outcome of the axios POST: an HTTP response with a status code, or a
network-level error (timeout, connection failure). -/
inductive NetOutcome
  | response (status : Nat)
  | netError
deriving Repr, DecidableEq

/-- Result of one submitSolution call: the updated orchestrator state, the
updated dev-fee paid counter, the number of POST requests issued, and the
recorded/emitted outcomes. resultEvent is the success flag of the emitted
solution_result event (none when the initial guard returned early). -/
structure SubmitResult where
  state : OState
  devFeePaid : Nat
  posts : Nat
  accepted : Bool
  successReceipt : Bool
  errorReceipt : Bool
  resultEvent : Option Bool
deriving Repr, DecidableEq

/-- `submitSolution` (part_001:685-830). The guard returns early when no
current challenge or no wallet. axios is called with
`validateStatus: status < 500`, so a status ≥ 500 raises just like a network
error; a received status is accepted iff it is in [200, 300); any other
received status throws `Server rejected solution` into the same catch block.
The catch block logs an error receipt and emits solution_result with
success=false; it performs no retry and rolls back no state. On acceptance the
counters are incremented, a success receipt is logged and solution_result with
success=true is emitted. -/
def submitSolution (s : OState) (devFeePaid : Nat) (addr : DerivedAddress)
    (nonce hash : String) (isDevFee : Bool) (net : NetOutcome) : SubmitResult :=
  if s.currentChallengeId = none ∨ s.walletLoaded = false then
    { state := s, devFeePaid := devFeePaid, posts := 0, accepted := false,
      successReceipt := false, errorReceipt := false, resultEvent := none }
  else
    match net with
    | NetOutcome.netError =>
      { state := s, devFeePaid := devFeePaid, posts := 1, accepted := false,
        successReceipt := false, errorReceipt := true, resultEvent := some false }
    | NetOutcome.response status =>
      if 500 ≤ status then
        { state := s, devFeePaid := devFeePaid, posts := 1, accepted := false,
          successReceipt := false, errorReceipt := true, resultEvent := some false }
      else if 200 ≤ status ∧ status < 300 then
        let s1 := { s with solutionsFound := s.solutionsFound + 1 }
        let s2 := if isDevFee then s1
          else { s1 with userSolutionsCount := s1.userSolutionsCount + 1 }
        let dev2 := if isDevFee then devFeePaid + 1 else devFeePaid
        { state := s2, devFeePaid := dev2, posts := 1, accepted := true,
          successReceipt := true, errorReceipt := false, resultEvent := some true }
      else
        { state := s, devFeePaid := devFeePaid, posts := 1, accepted := false,
          successReceipt := false, errorReceipt := true, resultEvent := some false }

/-! ## start (part_001:201-231) -/

/-- Side effects of a start() call that are not OState fields. -/
structure StartEffects where
  walletLoadInvoked : Bool
  pollStarted : Bool
deriving Repr, DecidableEq

/-- `ensureAddressesRegistered` (part_001:953-1010): each unregistered address
is registered; a per-address failure is caught and leaves that address
unregistered. regOk gives the outcome of the registration network call per
address index. -/
def ensureAddressesRegistered (addrs : List DerivedAddress) (regOk : Int → Bool) :
    List DerivedAddress :=
  addrs.map (fun a => if a.registered then a else { a with registered := regOk a.index })

/-- `start(password)` (part_001:201-231): when already running it returns
immediately with no effect; otherwise it loads the wallet, rebuilds the dedup
state from the receipt journal, registers addresses, sets the running flag,
start time and solution counter, and starts the poll loop. -/
def startOrchestrator (s : OState) (addrs : List DerivedAddress)
    (receipts : List Receipt) (regOk : Int → Bool) (now : Nat) :
    OState × StartEffects :=
  if s.isRunning then
    (s, { walletLoadInvoked := false, pollStarted := false })
  else
    let s1 := { s with walletLoaded := true, addresses := addrs }
    let s2 := loadSubmittedSolutions s1 receipts
    let s3 := { s2 with addresses := ensureAddressesRegistered s2.addresses regOk }
    ({ s3 with isRunning := true, startTime := some now, solutionsFound := 0 },
     { walletLoadInvoked := true, pollStarted := true })

/-! ## DevFeeManager (part_002:1-230) -/

/-- DevFeeManager configuration (the fields the claims are about). -/
structure DevFeeConfig where
  enabled : Bool
  apiUrl : String
  ratio : Nat
deriving Repr, DecidableEq

/-- The DevFeeManager constructor's config resolution (part_002:50-56):
`enabled ?? true`, `apiUrl || default` (JS ||: an empty string also falls back),
`ratio ?? 25`. -/
def mkDevFeeConfig (enabled : Option Bool) (apiUrl : Option String)
    (ratio : Option Nat) : DevFeeConfig :=
  { enabled := enabled.getD true
    apiUrl := match apiUrl with
      | some u => if u = "" then "https://miner.ada.markets/api/get-dev-address" else u
      | none => "https://miner.ada.markets/api/get-dev-address"
    ratio := ratio.getD 25 }

/-- `isEnabled()` (part_002:75-77). -/
def devFeeIsEnabled (cfg : DevFeeConfig) : Bool :=
  cfg.enabled && decide (0 < cfg.apiUrl.length)

/-- The `for (let i = 0; i < devFeesNeeded; i++)` catch-up loop of
checkAndMineDevFee (part_001:905-930): each round fetches an address and mines
a fee solution; a round whose submission is accepted increments the paid
counter (recordDevFeeSolution, part_002:198-206); a failed round is caught and
the loop continues. outcome i tells whether round i's submission succeeded. -/
def runDevFeeRounds (outcome : Nat → Bool) : Nat → Nat → Nat → Nat
  | _, 0, paid => paid
  | i, Nat.succ m, paid =>
    runDevFeeRounds outcome (i + 1) m (if outcome i then paid + 1 else paid)

/-- Result of one checkAndMineDevFee call: how many fee-mining rounds were
attempted and the resulting paid counter. -/
structure DevFeeCheckResult where
  attempts : Nat
  newPaid : Nat
deriving Repr, DecidableEq

/-- `checkAndMineDevFee` (part_001:876-940): no-op when dev fee is disabled;
otherwise expected = floor(userSolutionsCount / ratio); when more fee solutions
are owed than paid it runs exactly (expected - paid) sequential rounds; when
expected == paid it does nothing; when expected < paid it only logs a warning
(the paid counter is never decreased). -/
def checkAndMineDevFee (cfg : DevFeeConfig) (userSolutionsCount paid : Nat)
    (outcome : Nat → Bool) : DevFeeCheckResult :=
  if devFeeIsEnabled cfg = false then { attempts := 0, newPaid := paid }
  else
    let expected := userSolutionsCount / cfg.ratio
    if paid < expected then
      let n := expected - paid
      { attempts := n, newPaid := runDevFeeRounds outcome 0 n paid }
    else { attempts := 0, newPaid := paid }

/-! ## DevFeeManager.fetchDevFeeAddress (part_002:119-193) -/

/-- The cached dev-fee address record. -/
structure CachedAddress where
  address : String
  addressIndex : Int
  fetchedAt : Nat
  usedCount : Nat
deriving Repr, DecidableEq

/-- The persisted dev-fee cache (part_002:26-31). -/
structure DevFeeCache where
  currentAddress : Option CachedAddress
  totalDevFeeSolutions : Nat
  lastFetchError : Option String
deriving Repr, DecidableEq

/-- Address format validation (part_002:143): must start with "tnight1" or
"addr1". -/
def validDevAddress (a : String) : Bool :=
  a.startsWith "tnight1" || a.startsWith "addr1"

/-- Outcome of the axios POST to the assignment service. -/
inductive FetchOutcome
  | ok (devAddress : String) (devAddressIndex : Int)
  | netError (msg : String)
deriving Repr, DecidableEq

/-- The catch block of fetchDevFeeAddress (part_002:160-174): records the fetch
error, then falls back to the cached address when one exists (with no age
check), else rethrows. -/
def fetchFallback (cache : DevFeeCache) (msg : String) :
    DevFeeCache × Except String String :=
  let cache1 := { cache with lastFetchError := some msg }
  match cache.currentAddress with
  | some ca => (cache1, Except.ok ca.address)
  | none => (cache1, Except.error ("Failed to fetch dev fee address: " ++ msg))

/-- `fetchDevFeeAddress` (part_002:119-193) with the network outcome as input.
Raises when dev fee is disabled. On a response whose address fails format
validation, the throw happens inside the try block, so it is handled by the
same catch/fallback path as a network error. On success the cache is updated
with the fresh address and the fetch timestamp. -/
def fetchDevFeeAddress (enabled : Bool) (cache : DevFeeCache) (now : Nat)
    (res : FetchOutcome) : DevFeeCache × Except String String :=
  if enabled = false then
    (cache, Except.error "Dev fee is not enabled or configured")
  else
    match res with
    | FetchOutcome.ok addr idx =>
      if validDevAddress addr then
        ({ cache with
            currentAddress := some { address := addr, addressIndex := idx,
                                     fetchedAt := now, usedCount := 0 }
            lastFetchError := none },
         Except.ok addr)
      else fetchFallback cache ("Invalid address format: " ++ addr)
    | FetchOutcome.netError msg => fetchFallback cache msg

/-- Whether the fetch attempt failed (network error or invalid address
format). -/
def fetchFailed : FetchOutcome → Bool
  | FetchOutcome.ok addr _ => !validDevAddress addr
  | FetchOutcome.netError _ => true

/-! ## Helper lemmas about hex rendering -/

theorem hexCharsAux_length_ge (n : Nat) :
    ∀ acc : List Char, acc.length ≤ (hexCharsAux n acc).length := by
  induction n using Nat.strong_induction_on with
  | _ n ih =>
    intro acc
    rw [hexCharsAux]
    split
    · exact le_refl _
    · rename_i h
      have hlt : n / 16 < n := Nat.div_lt_self (Nat.pos_of_ne_zero h) (by norm_num)
      have := ih (n / 16) hlt (hexDigitChar (n % 16) :: acc)
      calc acc.length ≤ (hexDigitChar (n % 16) :: acc).length := by simp
        _ ≤ _ := this

theorem hexCharsAux_length_le (k : Nat) :
    ∀ n, ∀ acc : List Char, n < 16 ^ k →
      (hexCharsAux n acc).length ≤ k + acc.length := by
  induction k with
  | zero =>
    intro n acc hn
    have : n = 0 := by omega
    subst this
    rw [hexCharsAux]
    simp
  | succ k ih =>
    intro n acc hn
    rw [hexCharsAux]
    split
    · omega
    · rename_i h
      have hdiv : n / 16 < 16 ^ k := by
        have h16 : (0:Nat) < 16 := by norm_num
        rw [Nat.div_lt_iff_lt_mul h16]
        calc n < 16 ^ (k + 1) := hn
          _ = 16 ^ k * 16 := by ring
      have := ih (n / 16) (hexDigitChar (n % 16) :: acc) hdiv
      simp at this ⊢
      omega

theorem hexDigitChar_isLowerHex (d : Nat) (hd : d < 16) :
    isLowerHexDigit (hexDigitChar d) = true := by
  interval_cases d <;> decide

theorem hexCharsAux_chars (n : Nat) :
    ∀ acc : List Char, (∀ c ∈ acc, isLowerHexDigit c = true) →
      ∀ c ∈ hexCharsAux n acc, isLowerHexDigit c = true := by
  induction n using Nat.strong_induction_on with
  | _ n ih =>
    intro acc hacc
    rw [hexCharsAux]
    split
    · exact hacc
    · rename_i h
      have hlt : n / 16 < n := Nat.div_lt_self (Nat.pos_of_ne_zero h) (by norm_num)
      apply ih (n / 16) hlt
      intro c hc
      rcases List.mem_cons.mp hc with hc | hc
      · subst hc
        exact hexDigitChar_isLowerHex _ (Nat.mod_lt _ (by norm_num))
      · exact hacc c hc

theorem toHexChars_length_pos (n : Nat) : 1 ≤ (toHexChars n).length := by
  unfold toHexChars
  split
  · simp
  · rename_i h
    rw [hexCharsAux]
    split
    · omega
    · have := hexCharsAux_length_ge (n / 16) (hexDigitChar (n % 16) :: [])
      simp at this
      omega

theorem toHexChars_length_le (k n : Nat) (hk : 0 < k) (hn : n < 16 ^ k) :
    (toHexChars n).length ≤ k := by
  unfold toHexChars
  split
  · simpa using hk
  · have := hexCharsAux_length_le k n [] hn
    simpa using this

theorem toHexChars_chars (n : Nat) :
    ∀ c ∈ toHexChars n, isLowerHexDigit c = true := by
  unfold toHexChars
  split
  · intro c hc
    simp at hc
    subst hc
    decide
  · exact hexCharsAux_chars n [] (by simp)

theorem padStartList_length (l : List Char) (n : Nat) (c : Char) (h : l.length ≤ n) :
    (padStartList l n c).length = n := by
  unfold padStartList
  simp
  omega

theorem padStartList_chars (l : List Char) (n : Nat) (c : Char)
    (hc : isLowerHexDigit c = true) (hl : ∀ x ∈ l, isLowerHexDigit x = true) :
    ∀ x ∈ padStartList l n c, isLowerHexDigit x = true := by
  unfold padStartList
  intro x hx
  rcases List.mem_append.mp hx with hx | hx
  · have := List.eq_of_mem_replicate hx
    subst this
    exact hc
  · exact hl x hx

theorem byteToHex_length (b : Nat) : (byteToHex b).length = 2 := by
  unfold byteToHex
  apply padStartList_length
  exact toHexChars_length_le 2 (b % 256) (by norm_num) (by
    have := Nat.mod_lt b (show 0 < 256 by norm_num)
    norm_num
    omega)

theorem byteToHex_chars (b : Nat) :
    ∀ x ∈ byteToHex b, isLowerHexDigit x = true := by
  unfold byteToHex
  exact padStartList_chars _ _ _ (by decide) (toHexChars_chars _)

theorem join_map_byteToHex_length (bs : List Nat) :
    ((bs.map byteToHex).flatten).length = 2 * bs.length := by
  induction bs with
  | nil => simp
  | cons b rest ih =>
    simp [List.flatten, byteToHex_length, ih]
    ring

theorem join_map_byteToHex_chars (bs : List Nat) :
    ∀ x ∈ (bs.map byteToHex).flatten, isLowerHexDigit x = true := by
  induction bs with
  | nil => simp
  | cons b rest ih =>
    intro x hx
    simp [List.flatten] at hx
    rcases hx with hx | hx
    · exact byteToHex_chars b x hx
    · apply ih
      simpa using hx

/-! ## Claim theorems for the nonce functions -/

/-- Claim C7: for every num with 0 ≤ num < 2^64, numberToNonce returns exactly
16 lowercase hexadecimal characters, and for every worker id generateNonce
returns a string of exactly 16 hexadecimal characters or raises an error (here:
it always returns 16 lowercase hex characters). -/
theorem numberToNonce_generateNonce_wellformed (num : Nat) (hnum : num < 2 ^ 64)
    (workerId : Nat) (r : Nat → Nat) :
    ((numberToNonce num).length = 16
      ∧ ∀ c ∈ (numberToNonce num).data, isLowerHexDigit c = true)
    ∧ ∃ s : String, generateNonce workerId r = Except.ok s
        ∧ s.length = 16 ∧ ∀ c ∈ s.data, isLowerHexDigit c = true := by
  constructor
  · constructor
    · show (padStartList (toHexChars num) 16 '0').length = 16
      apply padStartList_length
      apply toHexChars_length_le 16 num (by norm_num)
      have : (16:Nat) ^ 16 = 2 ^ 64 := by norm_num
      omega
    · show ∀ c ∈ padStartList (toHexChars num) 16 '0', isLowerHexDigit c = true
      exact padStartList_chars _ _ _ (by decide) (toHexChars_chars _)
  · set bytes : List Nat :=
      (workerId % 256) :: ((List.range 7).map (fun i => r (i + 1) % 256)) with hbytes
    have hblen : bytes.length = 8 := by simp [hbytes]
    have hlen : ((bytes.map byteToHex).flatten).length = 16 := by
      rw [join_map_byteToHex_length, hblen]
    refine ⟨⟨(bytes.map byteToHex).flatten⟩, ?_, ?_, ?_⟩
    · unfold generateNonce
      rw [← hbytes]
      simp [hlen]
    · show ((bytes.map byteToHex).flatten).length = 16
      exact hlen
    · show ∀ c ∈ (bytes.map byteToHex).flatten, isLowerHexDigit c = true
      exact join_map_byteToHex_chars bytes

theorem numberToNonce_generateNonce_wellformed_witness :
    255 < 2 ^ 64
    ∧ (((numberToNonce 255).length = 16
        ∧ ∀ c ∈ (numberToNonce 255).data, isLowerHexDigit c = true)
      ∧ ∃ s : String, generateNonce 3 (fun _ => 171) = Except.ok s
          ∧ s.length = 16 ∧ ∀ c ∈ s.data, isLowerHexDigit c = true) :=
  ⟨by norm_num,
   numberToNonce_generateNonce_wellformed 255 (by norm_num) 3 (fun _ => 171)⟩

/-- Claim C8: the per-identity miner calls generateNonce with the default worker
id 0, and the generated nonce always begins with the two hex characters "00",
with 14 hex characters (56 bits) of random payload after them. -/
theorem minerGenerateNonce_starts_with_00 (r : Nat → Nat) :
    ∃ rest : List Char,
      minerGenerateNonce r = Except.ok ⟨'0' :: '0' :: rest⟩ ∧ rest.length = 14 := by
  set rest : List Char :=
    (((List.range 7).map (fun i => r (i + 1) % 256)).map byteToHex).flatten with hrest
  have hrlen : rest.length = 14 := by
    rw [hrest, join_map_byteToHex_length]
    simp
  refine ⟨rest, ?_, hrlen⟩
  unfold minerGenerateNonce generateNonce
  have hb0 : byteToHex (0 % 256) = ['0', '0'] := by decide
  simp only [hb0, List.map_cons, List.flatten_cons]
  rw [← hrest]
  have h2 : (['0', '0'] ++ rest) = '0' :: '0' :: rest := by simp
  rw [h2]
  have : ('0' :: '0' :: rest).length = 16 := by simp [hrlen]
  simp [this]

/-! ## Helper lemmas about the Solved-Pairs association list -/

theorem pairSolved_cons (k : String) (v : List String)
    (rest : List (String × List String)) (a c : String) :
    pairSolved ((k, v) :: rest) a c
      = if k = a then v.contains c else pairSolved rest a c := by
  by_cases hk : k = a <;> simp [pairSolved, lookupSolved, hk]

theorem pairSolved_addSolved_self (m : List (String × List String)) (a c : String) :
    pairSolved (addSolved m a c) a c = true := by
  induction m with
  | nil => simp [addSolved, pairSolved_cons]
  | cons kv rest ih =>
    obtain ⟨k, v⟩ := kv
    by_cases hk : k = a
    · subst hk
      simp [addSolved, pairSolved_cons]
    · simp [addSolved, hk, pairSolved_cons, ih]

theorem pairSolved_addSolved_mono (m : List (String × List String))
    (a c a' c' : String) (h : pairSolved m a c = true) :
    pairSolved (addSolved m a' c') a c = true := by
  induction m with
  | nil => simp [pairSolved, lookupSolved] at h
  | cons kv rest ih =>
    obtain ⟨k, v⟩ := kv
    rw [pairSolved_cons] at h
    by_cases hk : k = a'
    · subst hk
      by_cases hka : k = a
      · subst hka
        simp [addSolved, pairSolved_cons] at h ⊢
        simp [List.contains_cons, h]
      · simp [addSolved, pairSolved_cons, hka] at h ⊢
        exact h
    · by_cases hka : k = a
      · subst hka
        simp [addSolved, hk, pairSolved_cons] at h ⊢
        exact h
      · simp [addSolved, hk, pairSolved_cons, hka] at h ⊢
        exact ih h

/-! ## Helper lemmas about loadSubmittedSolutions -/

theorem applyReceipt_solved (s : OState) (r : Receipt) :
    (applyReceipt s r).solvedAddressChallenges
      = addSolved s.solvedAddressChallenges r.address r.challenge_id := by
  unfold applyReceipt
  cases hh : r.hash with
  | none => rfl
  | some x => by_cases hx : x = "" <;> simp [hx]

theorem applyReceipt_userCount (s : OState) (r : Receipt) :
    (applyReceipt s r).userSolutionsCount = s.userSolutionsCount := by
  unfold applyReceipt
  cases hh : r.hash with
  | none => rfl
  | some x => by_cases hx : x = "" <;> simp [hx]

theorem applyReceipt_submitted_mono (s : OState) (r : Receipt) (h : String)
    (hm : h ∈ s.submittedSolutions) :
    h ∈ (applyReceipt s r).submittedSolutions := by
  unfold applyReceipt
  cases hh : r.hash with
  | none => simpa using hm
  | some x =>
    by_cases hx : x = "" <;> simp [hx]
    · exact hm
    · exact Or.inr hm

theorem applyReceipt_adds_hash (s : OState) (r : Receipt) (x : String)
    (hx : r.hash = some x) (hne : x ≠ "") :
    x ∈ (applyReceipt s r).submittedSolutions := by
  unfold applyReceipt
  rw [hx]
  simp [hne]

theorem foldl_applyReceipt_userCount (l : List Receipt) :
    ∀ s : OState, (l.foldl applyReceipt s).userSolutionsCount = s.userSolutionsCount := by
  induction l with
  | nil => intro s; rfl
  | cons r rest ih =>
    intro s
    simp only [List.foldl_cons]
    rw [ih, applyReceipt_userCount]

theorem foldl_applyReceipt_submitted_mono (l : List Receipt) :
    ∀ (s : OState) (h : String), h ∈ s.submittedSolutions →
      h ∈ (l.foldl applyReceipt s).submittedSolutions := by
  induction l with
  | nil => intro s h hm; simpa using hm
  | cons r rest ih =>
    intro s h hm
    simp only [List.foldl_cons]
    exact ih _ _ (applyReceipt_submitted_mono s r h hm)

theorem foldl_applyReceipt_pair_mono (l : List Receipt) :
    ∀ (s : OState) (a c : String),
      pairSolved s.solvedAddressChallenges a c = true →
      pairSolved ((l.foldl applyReceipt s).solvedAddressChallenges) a c = true := by
  induction l with
  | nil => intro s a c hm; simpa using hm
  | cons r rest ih =>
    intro s a c hm
    simp only [List.foldl_cons]
    apply ih
    rw [applyReceipt_solved]
    exact pairSolved_addSolved_mono _ _ _ _ _ hm

theorem foldl_applyReceipt_mem (l : List Receipt) (r : Receipt) :
    ∀ s : OState, r ∈ l →
      (∀ x, r.hash = some x → x ≠ "" →
        x ∈ (l.foldl applyReceipt s).submittedSolutions)
      ∧ pairSolved ((l.foldl applyReceipt s).solvedAddressChallenges)
          r.address r.challenge_id = true := by
  induction l with
  | nil => intro s hr; simp at hr
  | cons t rest ih =>
    intro s hr
    rcases List.mem_cons.mp hr with hr | hr
    · subst hr
      simp only [List.foldl_cons]
      constructor
      · intro x hx hne
        exact foldl_applyReceipt_submitted_mono rest _ x
          (applyReceipt_adds_hash s r x hx hne)
      · apply foldl_applyReceipt_pair_mono
        rw [applyReceipt_solved]
        exact pairSolved_addSolved_self _ _ _
    · simp only [List.foldl_cons]
      exact ih _ hr

/-! ## Claim theorems: dedup/resume store (C2) -/

/-- Claim C2 fails as stated: the startup load excludes fee receipts from the
rebuilt Submitted-Hash Set and Solved-Pairs Map. Concretely, after loading a
single fee receipt with hash "hf", neither its hash nor its (identity,
challenge id) pair is recorded. -/
theorem loadSubmittedSolutions_fee_excluded_counterexample :
    ¬ ("hf" ∈ (loadSubmittedSolutions initialOState
          [{ address := "a1", challenge_id := "c1", hash := some "hf",
             isDevFee := true }]).submittedSolutions)
    ∧ pairSolved (loadSubmittedSolutions initialOState
          [{ address := "a1", challenge_id := "c1", hash := some "hf",
             isDevFee := true }]).solvedAddressChallenges "a1" "c1" = false := by
  decide

/-- Claim C2 (amended): after the startup load, for every NON-FEE receipt read,
the rebuilt Submitted-Hash Set contains that receipt's hash (whenever the hash
field is present and nonempty) and the rebuilt Solved-Pairs Map contains that
receipt's (identity, challenge id) pair; fee receipts are excluded from both;
and the user-solutions counter equals the number of non-fee receipts. -/
theorem loadSubmittedSolutions_rebuild (s : OState) (receipts : List Receipt)
    (r : Receipt) (hr : r ∈ receipts) (hfee : r.isDevFee = false) :
    (∀ x, r.hash = some x → x ≠ "" →
      x ∈ (loadSubmittedSolutions s receipts).submittedSolutions)
    ∧ pairSolved ((loadSubmittedSolutions s receipts).solvedAddressChallenges)
        r.address r.challenge_id = true
    ∧ (loadSubmittedSolutions s receipts).userSolutionsCount
        = (receipts.filter (fun t => !t.isDevFee)).length := by
  have hrf : r ∈ receipts.filter (fun t => !t.isDevFee) :=
    List.mem_filter.mpr ⟨hr, by simp [hfee]⟩
  unfold loadSubmittedSolutions
  have hmem := foldl_applyReceipt_mem (receipts.filter (fun t => !t.isDevFee)) r
    { s with userSolutionsCount := (receipts.filter (fun t => !t.isDevFee)).length } hrf
  exact ⟨hmem.1, hmem.2, foldl_applyReceipt_userCount _ _⟩

theorem loadSubmittedSolutions_rebuild_witness :
    (({ address := "a1", challenge_id := "c1", hash := some "h1", isDevFee := false } : Receipt) ∈ [({ address := "a1", challenge_id := "c1", hash := some "h1", isDevFee := false } : Receipt)])
    ∧ ((∀ x, ({ address := "a1", challenge_id := "c1", hash := some "h1", isDevFee := false } : Receipt).hash = some x → x ≠ "" → x ∈ (loadSubmittedSolutions initialOState [{ address := "a1", challenge_id := "c1", hash := some "h1", isDevFee := false }]).submittedSolutions)
      ∧ pairSolved ((loadSubmittedSolutions initialOState [{ address := "a1", challenge_id := "c1", hash := some "h1", isDevFee := false }]).solvedAddressChallenges) "a1" "c1" = true
      ∧ (loadSubmittedSolutions initialOState [{ address := "a1", challenge_id := "c1", hash := some "h1", isDevFee := false }]).userSolutionsCount = ([({ address := "a1", challenge_id := "c1", hash := some "h1", isDevFee := false } : Receipt)].filter (fun t => !t.isDevFee)).length) :=
  ⟨by decide,
   loadSubmittedSolutions_rebuild initialOState _ _ (by decide) (by decide)⟩

/-! ## Claim theorems: new-challenge transition (C1) -/

/-- Claim C1 fails as stated: on the new-challenge transition the code clears
the Submitted-Hash Set too (part_001:417). Concretely, a hash recorded as
submitted under challenge "abc" is no longer recorded after the transition to
challenge "def". -/
theorem pollAndMine_clears_submitted_counterexample :
    "h1" ∈ ({ initialOState with currentChallengeId := some "abc", submittedSolutions := ["h1"] } : OState).submittedSolutions
    ∧ "h1" ∉ (pollAndMine { initialOState with currentChallengeId := some "abc", submittedSolutions := ["h1"] } (ChallengeResponse.active { challenge_id := "def", difficulty := "00ff", no_pre_mine := false }) true).submittedSolutions := by
  decide

/-- Claim C1 (amended): during the new-challenge transition (poll tick
observing an ACTIVE challenge whose id differs from the current one) BOTH the
per-challenge addresses-processed tracking set AND the Submitted-Hash Set are
cleared; in-memory hash dedup therefore does not span successive challenges
(it is re-seeded from the receipt journal only at startup). -/
theorem pollAndMine_new_challenge_clears (s : OState) (c : Challenge)
    (romOk : Bool) (h : s.currentChallengeId ≠ some c.challenge_id) :
    (pollAndMine s (ChallengeResponse.active c) romOk).addressesProcessedCurrentChallenge = []
    ∧ (pollAndMine s (ChallengeResponse.active c) romOk).submittedSolutions = [] := by
  unfold pollAndMine
  simp only [if_neg h]
  by_cases hr : romOk = false <;> simp [hr]

theorem pollAndMine_new_challenge_clears_witness :
    (({ initialOState with currentChallengeId := some "abc", submittedSolutions := ["h1"], addressesProcessedCurrentChallenge := [0] } : OState).currentChallengeId ≠ some ("def" : String))
    ∧ ((pollAndMine { initialOState with currentChallengeId := some "abc", submittedSolutions := ["h1"], addressesProcessedCurrentChallenge := [0] } (ChallengeResponse.active { challenge_id := "def", difficulty := "00ff", no_pre_mine := false }) true).addressesProcessedCurrentChallenge = []
      ∧ (pollAndMine { initialOState with currentChallengeId := some "abc", submittedSolutions := ["h1"], addressesProcessedCurrentChallenge := [0] } (ChallengeResponse.active { challenge_id := "def", difficulty := "00ff", no_pre_mine := false }) true).submittedSolutions = []) :=
  ⟨by decide,
   pollAndMine_new_challenge_clears _ _ true (by decide)⟩

/-! ## Claim theorems: per-identity mining loop (C3) -/

theorem processBatch_cons (accept : String → Bool) (a c : String) (s : OState)
    (h n : String) (rest : List (String × String)) :
    processBatch accept a c s ((h, n) :: rest)
      = if accept h then
          if h ∈ s.submittedSolutions then
            processBatch accept a c s rest
          else
            ({ { s with submittedSolutions := h :: s.submittedSolutions } with
                solvedAddressChallenges :=
                  addSolved ({ s with submittedSolutions := h :: s.submittedSolutions } : OState).solvedAddressChallenges a c },
             [MineEvent.addSubmitted h, MineEvent.markSolved a c,
              MineEvent.emitSolutionSubmit a c n, MineEvent.invokeSubmit a n h], true)
        else processBatch accept a c s rest := rfl

theorem mineBatches_cons (accept : String → Bool) (a c : String) (s : OState)
    (b : List (String × String)) (bs : List (List (String × String))) :
    mineBatches accept a c s (b :: bs)
      = match processBatch accept a c s b with
        | (s', ev, true) => (s', ev)
        | (s', ev, false) =>
          match mineBatches accept a c s' bs with
          | (s'', evs) => (s'', ev ++ evs) := rfl

theorem processBatch_spec (accept : String → Bool) (a c : String) :
    ∀ (cands : List (String × String)) (s : OState),
      processBatch accept a c s cands = (s, [], false)
      ∨ ∃ s' h n, processBatch accept a c s cands =
          (s', [MineEvent.addSubmitted h, MineEvent.markSolved a c,
                MineEvent.emitSolutionSubmit a c n, MineEvent.invokeSubmit a n h], true)
          ∧ h ∈ s'.submittedSolutions
          ∧ pairSolved s'.solvedAddressChallenges a c = true := by
  intro cands
  induction cands with
  | nil => intro s; left; rfl
  | cons p rest ih =>
    intro s
    obtain ⟨h, n⟩ := p
    by_cases hacc : accept h
    · by_cases hdup : h ∈ s.submittedSolutions
      · rw [processBatch_cons, if_pos hacc, if_pos hdup]
        exact ih s
      · right
        refine ⟨{ s with submittedSolutions := h :: s.submittedSolutions, solvedAddressChallenges := addSolved s.solvedAddressChallenges a c }, h, n, ?_, ?_, ?_⟩
        · rw [processBatch_cons, if_pos hacc, if_neg hdup]
        · simp
        · exact pairSolved_addSolved_self _ _ _
    · rw [processBatch_cons, if_neg hacc]
      exact ih s

theorem mineBatches_spec (accept : String → Bool) (a c : String) :
    ∀ (batches : List (List (String × String))) (s : OState),
      mineBatches accept a c s batches = (s, [])
      ∨ ∃ s' h n, mineBatches accept a c s batches =
          (s', [MineEvent.addSubmitted h, MineEvent.markSolved a c,
                MineEvent.emitSolutionSubmit a c n, MineEvent.invokeSubmit a n h])
          ∧ h ∈ s'.submittedSolutions
          ∧ pairSolved s'.solvedAddressChallenges a c = true := by
  intro batches
  induction batches with
  | nil => intro s; left; rfl
  | cons b bs ih =>
    intro s
    rcases processBatch_spec accept a c b s with hpb | ⟨s', h, n, hpb, hmem, hpair⟩
    · have hstep : mineBatches accept a c s (b :: bs)
          = mineBatches accept a c s bs := by
        rw [mineBatches_cons, hpb]
        rcases hmb : mineBatches accept a c s bs with ⟨s'', evs⟩
        simp [hmb]
      rw [hstep]
      exact ih s
    · right
      refine ⟨s', h, n, ?_, hmem, hpair⟩
      rw [mineBatches_cons, hpb]

/-- Claim C3: in the per-identity mining loop, when the first accepted digest
not already in the Submitted-Hash Set is found, the operations happen in the
order: add hash to Submitted-Hash Set, mark (identity, challenge) solved, emit
the solution-found event, invoke the Solution Submitter, terminate the loop.
The whole run produces at most one submitter invocation, and whenever one
occurs the final state already holds the hash and the solved pair (the pair is
marked solved before the network call, as witnessed by the event order). -/
theorem mineForAddress_submit_order (accept : String → Bool) (a c : String)
    (s : OState) (batches : List (List (String × String))) :
    (mineBatches accept a c s batches = (s, [])
      ∨ ∃ s' h n, mineBatches accept a c s batches =
          (s', [MineEvent.addSubmitted h, MineEvent.markSolved a c,
                MineEvent.emitSolutionSubmit a c n, MineEvent.invokeSubmit a n h])
          ∧ h ∈ s'.submittedSolutions
          ∧ pairSolved s'.solvedAddressChallenges a c = true)
    ∧ countSubmits (mineBatches accept a c s batches).2 ≤ 1 := by
  rcases mineBatches_spec accept a c batches s with hmb | ⟨s', h, n, hmb, hmem, hpair⟩
  · exact ⟨Or.inl hmb, by rw [hmb]; simp [countSubmits]⟩
  · exact ⟨Or.inr ⟨s', h, n, hmb, hmem, hpair⟩, by rw [hmb]; simp [countSubmits]⟩

/-! ## Claim theorems: fee scheduler (C4) -/

theorem runDevFeeRounds_ge (outcome : Nat → Bool) :
    ∀ (n i paid : Nat), paid ≤ runDevFeeRounds outcome i n paid := by
  intro n
  induction n with
  | zero => intro i paid; exact le_refl _
  | succ m ih =>
    intro i paid
    have hstep : runDevFeeRounds outcome i (m + 1) paid
        = runDevFeeRounds outcome (i + 1) m (if outcome i then paid + 1 else paid) := rfl
    rw [hstep]
    have := ih (i + 1) (if outcome i then paid + 1 else paid)
    by_cases ho : outcome i <;> simp [ho] at this ⊢ <;> omega

/-- Claim C4: the Fee Scheduler computes expected = floor(userSolutionsCount /
ratio), with default ratio 25; when expected > feeSolutionsPaid it runs exactly
(expected - feeSolutionsPaid) sequential fee-mining rounds, and the number of
rounds does not depend on individual round failures (a failed round is caught
and the catch-up continues); when expected ≤ feeSolutionsPaid it is a no-op
(in the < case only a warning is logged) and the paid counter is never
decreased. -/
theorem checkAndMineDevFee_schedule (cfg : DevFeeConfig)
    (userSolutionsCount paid : Nat) (outcome : Nat → Bool)
    (hratio : 0 < cfg.ratio) :
    (devFeeIsEnabled cfg = true → paid < userSolutionsCount / cfg.ratio →
      (checkAndMineDevFee cfg userSolutionsCount paid outcome).attempts
        = userSolutionsCount / cfg.ratio - paid)
    ∧ (userSolutionsCount / cfg.ratio ≤ paid →
      checkAndMineDevFee cfg userSolutionsCount paid outcome
        = { attempts := 0, newPaid := paid })
    ∧ paid ≤ (checkAndMineDevFee cfg userSolutionsCount paid outcome).newPaid
    ∧ (∀ outcome2 : Nat → Bool,
        (checkAndMineDevFee cfg userSolutionsCount paid outcome2).attempts
          = (checkAndMineDevFee cfg userSolutionsCount paid outcome).attempts)
    ∧ (mkDevFeeConfig none none none).ratio = 25 := by
  refine ⟨?_, ?_, ?_, ?_, rfl⟩
  · intro hen hlt
    unfold checkAndMineDevFee
    simp [hen, hlt]
  · intro hle
    unfold checkAndMineDevFee
    by_cases hen : devFeeIsEnabled cfg = false
    · simp [hen]
    · simp [hen]
      omega
  · unfold checkAndMineDevFee
    by_cases hen : devFeeIsEnabled cfg = false
    · simp [hen]
    · by_cases hlt : paid < userSolutionsCount / cfg.ratio
      · simp [hen, hlt]
        exact runDevFeeRounds_ge outcome _ _ _
      · simp [hen, hlt]
  · intro outcome2
    unfold checkAndMineDevFee
    by_cases hen : devFeeIsEnabled cfg = false
    · simp [hen]
    · by_cases hlt : paid < userSolutionsCount / cfg.ratio
      · simp [hen, hlt]
      · simp [hen, hlt]

theorem checkAndMineDevFee_schedule_witness :
    0 < (mkDevFeeConfig none none none).ratio
    ∧ ((devFeeIsEnabled (mkDevFeeConfig none none none) = true → 1 < 50 / (mkDevFeeConfig none none none).ratio → (checkAndMineDevFee (mkDevFeeConfig none none none) 50 1 (fun _ => true)).attempts = 50 / (mkDevFeeConfig none none none).ratio - 1)
      ∧ (50 / (mkDevFeeConfig none none none).ratio ≤ 1 → checkAndMineDevFee (mkDevFeeConfig none none none) 50 1 (fun _ => true) = { attempts := 0, newPaid := 1 })
      ∧ 1 ≤ (checkAndMineDevFee (mkDevFeeConfig none none none) 50 1 (fun _ => true)).newPaid
      ∧ (∀ outcome2 : Nat → Bool, (checkAndMineDevFee (mkDevFeeConfig none none none) 50 1 outcome2).attempts = (checkAndMineDevFee (mkDevFeeConfig none none none) 50 1 (fun _ => true)).attempts)
      ∧ (mkDevFeeConfig none none none).ratio = 25) :=
  ⟨by decide,
   checkAndMineDevFee_schedule (mkDevFeeConfig none none none) 50 1 (fun _ => true) (by decide)⟩

/-! ## Claim theorems: solution submitter (C5, C6) -/

/-- Claim C5: a submission is treated as accepted iff the HTTP status is in the
2xx range; every other status (including every 4xx) is a rejection surfaced as
an error (error receipt plus solution_result event with success=false), and
exactly one POST is made for the nonce — the rejection path performs no second
attempt. -/
theorem submitSolution_accept_iff_2xx (s : OState) (devFeePaid : Nat)
    (addr : DerivedAddress) (nonce hash : String) (isDevFee : Bool) (status : Nat)
    (hcid : s.currentChallengeId ≠ none) (hw : s.walletLoaded = true) :
    (submitSolution s devFeePaid addr nonce hash isDevFee (NetOutcome.response status)).posts = 1
    ∧ ((submitSolution s devFeePaid addr nonce hash isDevFee (NetOutcome.response status)).accepted = true
        ↔ (200 ≤ status ∧ status < 300))
    ∧ (¬(200 ≤ status ∧ status < 300) →
        (submitSolution s devFeePaid addr nonce hash isDevFee (NetOutcome.response status)).errorReceipt = true
        ∧ (submitSolution s devFeePaid addr nonce hash isDevFee (NetOutcome.response status)).resultEvent = some false
        ∧ (submitSolution s devFeePaid addr nonce hash isDevFee (NetOutcome.response status)).successReceipt = false) := by
  unfold submitSolution
  have hguard : ¬(s.currentChallengeId = none ∨ s.walletLoaded = false) := by
    simp [hcid, hw]
  by_cases h5 : 500 ≤ status
  · have h2 : ¬(200 ≤ status ∧ status < 300) := by omega
    simp [hguard, h5, h2]
  · by_cases h2 : 200 ≤ status ∧ status < 300
    · simp [hguard, h5, h2]
    · simp [hguard, h5, h2]

theorem submitSolution_accept_iff_2xx_witness :
    (({ initialOState with currentChallengeId := some "c1", walletLoaded := true } : OState).currentChallengeId ≠ none)
    ∧ (({ initialOState with currentChallengeId := some "c1", walletLoaded := true } : OState).walletLoaded = true)
    ∧ ((submitSolution { initialOState with currentChallengeId := some "c1", walletLoaded := true } 0 { index := 0, bech32 := "a1", registered := true } "n1" "h1" false (NetOutcome.response 409)).posts = 1
      ∧ ((submitSolution { initialOState with currentChallengeId := some "c1", walletLoaded := true } 0 { index := 0, bech32 := "a1", registered := true } "n1" "h1" false (NetOutcome.response 409)).accepted = true ↔ (200 ≤ 409 ∧ 409 < 300))
      ∧ (¬(200 ≤ 409 ∧ 409 < 300) →
          (submitSolution { initialOState with currentChallengeId := some "c1", walletLoaded := true } 0 { index := 0, bech32 := "a1", registered := true } "n1" "h1" false (NetOutcome.response 409)).errorReceipt = true
          ∧ (submitSolution { initialOState with currentChallengeId := some "c1", walletLoaded := true } 0 { index := 0, bech32 := "a1", registered := true } "n1" "h1" false (NetOutcome.response 409)).resultEvent = some false
          ∧ (submitSolution { initialOState with currentChallengeId := some "c1", walletLoaded := true } 0 { index := 0, bech32 := "a1", registered := true } "n1" "h1" false (NetOutcome.response 409)).successReceipt = false)) :=
  ⟨by decide, by decide,
   submitSolution_accept_iff_2xx _ 0 _ "n1" "h1" false 409 (by decide) (by decide)⟩

/-- Claim C6: whenever a submission fails (rejection or network error), the
submitter records an error receipt and publishes a solution_result event with
success=false, and the dedup state is not rolled back: the Solved-Pairs Map and
Submitted-Hash Set are exactly as before the call, so a pair marked solved
before the submission remains marked solved after the failure. -/
theorem submitSolution_failure_no_rollback (s : OState) (devFeePaid : Nat)
    (addr : DerivedAddress) (nonce hash : String) (isDevFee : Bool)
    (net : NetOutcome) (cid : String)
    (hcid : s.currentChallengeId = some cid) (hw : s.walletLoaded = true)
    (hfail : (submitSolution s devFeePaid addr nonce hash isDevFee net).accepted = false) :
    (submitSolution s devFeePaid addr nonce hash isDevFee net).errorReceipt = true
    ∧ (submitSolution s devFeePaid addr nonce hash isDevFee net).resultEvent = some false
    ∧ (submitSolution s devFeePaid addr nonce hash isDevFee net).state.solvedAddressChallenges
        = s.solvedAddressChallenges
    ∧ (submitSolution s devFeePaid addr nonce hash isDevFee net).state.submittedSolutions
        = s.submittedSolutions
    ∧ (pairSolved s.solvedAddressChallenges addr.bech32 cid = true →
        pairSolved ((submitSolution s devFeePaid addr nonce hash isDevFee net).state.solvedAddressChallenges)
          addr.bech32 cid = true) := by
  have hguard : ¬(s.currentChallengeId = none ∨ s.walletLoaded = false) := by
    simp [hcid, hw]
  cases net with
  | netError =>
    unfold submitSolution at hfail ⊢
    simp [hguard]
  | response status =>
    by_cases h5 : 500 ≤ status
    · unfold submitSolution at hfail ⊢
      simp [hguard, h5]
    · by_cases h2 : 200 ≤ status ∧ status < 300
      · exfalso
        unfold submitSolution at hfail
        simp [hguard, h5, h2] at hfail
      · unfold submitSolution at hfail ⊢
        simp [hguard, h5, h2]

theorem submitSolution_failure_no_rollback_witness :
    (({ initialOState with currentChallengeId := some "c1", walletLoaded := true, solvedAddressChallenges := [("a1", ["c1"])] } : OState).currentChallengeId = some "c1")
    ∧ (({ initialOState with currentChallengeId := some "c1", walletLoaded := true, solvedAddressChallenges := [("a1", ["c1"])] } : OState).walletLoaded = true)
    ∧ ((submitSolution { initialOState with currentChallengeId := some "c1", walletLoaded := true, solvedAddressChallenges := [("a1", ["c1"])] } 0 { index := 0, bech32 := "a1", registered := true } "n1" "h1" false NetOutcome.netError).accepted = false)
    ∧ ((submitSolution { initialOState with currentChallengeId := some "c1", walletLoaded := true, solvedAddressChallenges := [("a1", ["c1"])] } 0 { index := 0, bech32 := "a1", registered := true } "n1" "h1" false NetOutcome.netError).errorReceipt = true
      ∧ (submitSolution { initialOState with currentChallengeId := some "c1", walletLoaded := true, solvedAddressChallenges := [("a1", ["c1"])] } 0 { index := 0, bech32 := "a1", registered := true } "n1" "h1" false NetOutcome.netError).resultEvent = some false
      ∧ (submitSolution { initialOState with currentChallengeId := some "c1", walletLoaded := true, solvedAddressChallenges := [("a1", ["c1"])] } 0 { index := 0, bech32 := "a1", registered := true } "n1" "h1" false NetOutcome.netError).state.solvedAddressChallenges = ({ initialOState with currentChallengeId := some "c1", walletLoaded := true, solvedAddressChallenges := [("a1", ["c1"])] } : OState).solvedAddressChallenges
      ∧ (submitSolution { initialOState with currentChallengeId := some "c1", walletLoaded := true, solvedAddressChallenges := [("a1", ["c1"])] } 0 { index := 0, bech32 := "a1", registered := true } "n1" "h1" false NetOutcome.netError).state.submittedSolutions = ({ initialOState with currentChallengeId := some "c1", walletLoaded := true, solvedAddressChallenges := [("a1", ["c1"])] } : OState).submittedSolutions
      ∧ (pairSolved ({ initialOState with currentChallengeId := some "c1", walletLoaded := true, solvedAddressChallenges := [("a1", ["c1"])] } : OState).solvedAddressChallenges "a1" "c1" = true →
          pairSolved ((submitSolution { initialOState with currentChallengeId := some "c1", walletLoaded := true, solvedAddressChallenges := [("a1", ["c1"])] } 0 { index := 0, bech32 := "a1", registered := true } "n1" "h1" false NetOutcome.netError).state.solvedAddressChallenges) "a1" "c1" = true)) :=
  ⟨by decide, by decide, by decide,
   submitSolution_failure_no_rollback _ 0 _ "n1" "h1" false NetOutcome.netError "c1" (by decide) (by decide) (by decide)⟩

/-! ## Claim theorems: start idempotence (C9) -/

/-- Claim C9: calling start while the orchestrator is already running is a
no-op that returns without error: it does not invoke the wallet load, does not
start polling, and leaves every orchestrator state field unchanged. -/
theorem start_noop_when_running (s : OState) (addrs : List DerivedAddress)
    (receipts : List Receipt) (regOk : Int → Bool) (now : Nat)
    (h : s.isRunning = true) :
    startOrchestrator s addrs receipts regOk now
      = (s, { walletLoadInvoked := false, pollStarted := false }) := by
  unfold startOrchestrator
  simp [h]

theorem start_noop_when_running_witness :
    (({ initialOState with isRunning := true, currentChallengeId := some "abc", submittedSolutions := ["h1"], userSolutionsCount := 7 } : OState).isRunning = true)
    ∧ (startOrchestrator { initialOState with isRunning := true, currentChallengeId := some "abc", submittedSolutions := ["h1"], userSolutionsCount := 7 } [] [] (fun _ => true) 99
        = ({ initialOState with isRunning := true, currentChallengeId := some "abc", submittedSolutions := ["h1"], userSolutionsCount := 7 }, { walletLoadInvoked := false, pollStarted := false })) :=
  ⟨by decide,
   start_noop_when_running _ [] [] (fun _ => true) 99 (by decide)⟩

/-! ## Claim theorems: dev-fee address fetch fallback (C10) -/

/-- Claim C10: when the fee-recipient fetch fails (network error or invalid
address format) and a cached address exists, fetchDevFeeAddress returns the
cached address instead of raising, regardless of the cached address's age (its
fetch timestamp is never consulted on the fallback path); it raises only when
the fetch fails and no cached address exists. -/
theorem fetchDevFeeAddress_fallback (cache : DevFeeCache) (now : Nat)
    (res : FetchOutcome) (hfail : fetchFailed res = true) :
    (∀ ca, cache.currentAddress = some ca →
      (fetchDevFeeAddress true cache now res).2 = Except.ok ca.address)
    ∧ (cache.currentAddress = none →
      ∃ e, (fetchDevFeeAddress true cache now res).2 = Except.error e) := by
  cases res with
  | ok a i =>
    have hv : validDevAddress a = false := by
      unfold fetchFailed at hfail
      simpa using hfail
    unfold fetchDevFeeAddress fetchFallback
    simp [hv]
    constructor
    · intro ca hca
      rw [hca]
    · intro hnone
      rw [hnone]
      exact ⟨_, rfl⟩
  | netError msg =>
    unfold fetchDevFeeAddress fetchFallback
    simp
    constructor
    · intro ca hca
      rw [hca]
    · intro hnone
      rw [hnone]
      exact ⟨_, rfl⟩

theorem fetchDevFeeAddress_fallback_witness :
    fetchFailed (FetchOutcome.netError "timeout") = true
    ∧ ((∀ ca, ({ currentAddress := some { address := "addr1xyz", addressIndex := 4, fetchedAt := 0, usedCount := 9 }, totalDevFeeSolutions := 2, lastFetchError := none } : DevFeeCache).currentAddress = some ca →
        (fetchDevFeeAddress true { currentAddress := some { address := "addr1xyz", addressIndex := 4, fetchedAt := 0, usedCount := 9 }, totalDevFeeSolutions := 2, lastFetchError := none } 7200000 (FetchOutcome.netError "timeout")).2 = Except.ok ca.address)
      ∧ (({ currentAddress := some { address := "addr1xyz", addressIndex := 4, fetchedAt := 0, usedCount := 9 }, totalDevFeeSolutions := 2, lastFetchError := none } : DevFeeCache).currentAddress = none →
        ∃ e, (fetchDevFeeAddress true { currentAddress := some { address := "addr1xyz", addressIndex := 4, fetchedAt := 0, usedCount := 9 }, totalDevFeeSolutions := 2, lastFetchError := none } 7200000 (FetchOutcome.netError "timeout")).2 = Except.error e)) :=
  ⟨by decide,
   fetchDevFeeAddress_fallback _ 7200000 (FetchOutcome.netError "timeout") (by decide)⟩
